import Mathlib

/-!
Verification of the Index repository's ingestion-to-retrieval pipeline.

The Python sources are shallowly embedded: strings become `List Char` or
`String` (Python indexing and slicing are character based), machine floats
carried through the scoring path become `ℚ`, fallible calls return `Option`
or `Except`, and the `while` loop of the plain-text chunker is given
explicit fuel so that its (non-)termination can be analysed.
-/

set_option maxRecDepth 40000

namespace Index

/-! ## Python string primitives -/

/-- Whitespace recognised by Python's `str.strip()` (the ASCII subset, which
covers all content appearing in the repository's chunking path). -/
def isPySpace (c : Char) : Bool :=
  c = ' ' || c = '\t' || c = '\n' || c = '\r' || c = '\x0b' || c = '\x0c'

/-- Python `s.strip()` on a string viewed as a list of characters. -/
def pyStrip (s : List Char) : List Char :=
  ((s.dropWhile isPySpace).reverse.dropWhile isPySpace).reverse

/-- Python slice `s[start:stop]` for `0 ≤ start ≤ stop` (out-of-range bounds
are clamped, exactly as in Python). -/
def pySlice (s : List Char) (start stop : Nat) : List Char :=
  (s.drop start).take (stop - start)

/-! ## Chunker: `src/providers/parser/text.py` -/

/-- A parsed chunk — the `Chunk` dataclass of `providers/parser/base.py`.
`TextParser.parse` always builds it with an empty metadata dict, so the
metadata field is not carried here. -/
structure Chunk where
  content : List Char
  index : Nat
deriving DecidableEq, Repr

/-- The `while` loop of `TextParser._chunk_text` (text.py lines 54-62) with
explicit fuel: each iteration emits `text[start : start + size]` and sets
`start = end - overlap`, i.e. `start + size - overlap`.  `none` means the
loop did not finish within `fuel` iterations.  For `overlap ≤ size` the Nat
subtraction agrees exactly with Python's integer arithmetic (the start index
never decreases there). -/
def chunkLoop (size overlap : Nat) (text : List Char) : Nat → Nat → Option (List (List Char))
  | _start, 0 => none
  | start, fuel + 1 =>
    if start < text.length then
      match chunkLoop size overlap text (start + size - overlap) fuel with
      | none => none
      | some rest => some (pySlice text start (start + size) :: rest)
    else
      some []

/-- Model of `TextParser._chunk_text` (text.py lines 49-63).  The loop is run with
`text.length + 1` fuel, which is proved sufficient whenever
`overlap < size`; a `none` result reports that the source's unbounded
`while` loop diverges. -/
def chunk_text (size overlap : Nat) (text : List Char) : Option (List (List Char)) :=
  if text.length ≤ size then some [text]
  else chunkLoop size overlap text 0 (text.length + 1)

/-- Model of `TextParser.parse` (text.py lines 17-31): blank content yields no chunks;
otherwise the content is stripped, chunked, and the chunks are numbered in
emission order. -/
def parse (size overlap : Nat) (content : List Char) : Option (List Chunk) :=
  if pyStrip content = [] then some []
  else
    (chunk_text size overlap (pyStrip content)).map fun cs =>
      cs.enum.map fun p => ⟨p.2, p.1⟩

/-- Modelled from the spec (§4.1): the sliding-window emission loop, written
from the spec's words — starting at `start`, emit `text[start : start+size]`
and step `start := start + step` until `start ≥ len(text)`.  `step` is
positive, so the recursion terminates. -/
def specLoop (size step : Nat) (hstep : 0 < step) (text : List Char) (start : Nat) :
    List (List Char) :=
  if _h : start < text.length then
    pySlice text start (start + size) :: specLoop size step hstep text (start + step)
  else []
termination_by text.length - start
decreasing_by omega

/-- Modelled from the spec (§4.1): the plain-text sliding-window algorithm —
one chunk when the text fits in a single window, otherwise the stepped
emission with step `size - overlap`. -/
def specSlidingWindow (size overlap : Nat) (hov : overlap < size) (text : List Char) :
    List (List Char) :=
  if text.length ≤ size then [text]
  else specLoop size (size - overlap) (by omega) text 0

/-! ## Python rounding -/

/-- Python's built-in `round` to the nearest integer, on exact rationals:
banker's rounding — halves go to the even neighbour, everything else to the
nearest integer. -/
def pyRound (q : ℚ) : ℤ :=
  if q - ⌊q⌋ = 1 / 2 ∧ ⌊q⌋ % 2 = 0 then ⌊q⌋ else ⌊q + 1 / 2⌋

/-- Python's `round(q, 4)`. -/
def round4 (q : ℚ) : ℚ :=
  (pyRound (q * 10000) : ℚ) / 10000

/-! ## Vector storage: `apps/api/src/providers/storage/pgvector.py` -/

/-- A row of the `chunks` table (`models/chunk.py`).  The free-form
`metadata` JSON column duplicates the fields carried here (doc_id, source,
chunk_index) and is not modelled separately. -/
structure ChunkRow where
  id : String
  content : List Char
  embedding : List ℚ
  doc_id : String
  source : Option String
  chunk_index : Nat
deriving DecidableEq, Repr

/-- A row of the `documents` table (`models/document.py`), restricted to the
fields the lifecycle mutates. -/
structure Document where
  id : String
  status : String
  error_message : Option String
  chunk_count : Nat
deriving DecidableEq, Repr

/-- The two tables behind `PgvectorStorageProvider`. -/
structure StoreState where
  chunks : List ChunkRow
  documents : List Document
deriving DecidableEq, Repr

/-- The `SearchResult` dataclass as produced by `PgvectorStorageProvider.search`
(pgvector.py lines 60-68); of the metadata dict only the normalised
`"source"` entry (`row.source or ""`) is carried. -/
structure SearchResult where
  id : String
  content : List Char
  score : ℚ
  source : String
deriving DecidableEq, Repr

/-- The SQL `ORDER BY distance` key order on (distance, row) pairs. -/
def distLE (p q : ℚ × ChunkRow) : Prop := p.1 ≤ q.1

instance : DecidableRel distLE := fun p q => inferInstanceAs (Decidable (p.1 ≤ q.1))

instance : IsTotal (ℚ × ChunkRow) distLE := ⟨fun p q => le_total p.1 q.1⟩

instance : IsTrans (ℚ × ChunkRow) distLE := ⟨fun _ _ _ => le_trans⟩

/-- Model of `PgvectorStorageProvider.search` (pgvector.py lines 42-68): optionally
restrict to one `doc_id`, order rows by the backing engine's cosine distance
to the query (ascending), keep the first `top_k`, and score each row as
`round(1 - distance, 4)`.  The distance function itself is computed by the
pgvector extension, outside this repository, and is passed in as `dist`. -/
def search (dist : List ℚ → List ℚ → ℚ) (rows : List ChunkRow) (query : List ℚ)
    (top_k : Nat) (filter_doc : Option String) : List SearchResult :=
  let selected : List ChunkRow := match filter_doc with
    | some d => rows.filter fun r => r.doc_id = d
    | none => rows
  let ordered := List.insertionSort distLE (selected.map fun r => (dist r.embedding query, r))
  (ordered.take top_k).map fun p =>
    ⟨p.2.id, p.2.content, round4 (1 - p.1), p.2.source.getD ""⟩

/-- Modelled from the spec (§4.3 and glossary, "similarity = 1 − distance",
cosine distance of the backing engine, which is not part of the repository):
cosine distance for one-dimensional vectors, where the Euclidean norms are
`|x|` and no square roots arise.  Other shapes are unused by the theorems
and are given the orthogonal distance 1. -/
def cosineDistance1 : List ℚ → List ℚ → ℚ
  | [x], [y] => 1 - x * y / (|x| * |y|)
  | _, _ => 1

/-- Model of `PgvectorStorageProvider.delete_by_doc_id` (pgvector.py lines 93-98):
delete every chunk row with the given `doc_id` and the document row with
that id; the source issues both deletes in one session with a single
commit, so the model is a single state transition. -/
def delete_by_doc_id (st : StoreState) (d : String) : StoreState :=
  ⟨st.chunks.filter fun c => c.doc_id ≠ d, st.documents.filter fun doc => doc.id ≠ d⟩

/-- Model of `PgvectorStorageProvider.count` (pgvector.py lines 100-104):
`COUNT(chunks.id)`. -/
def count (st : StoreState) : Nat := st.chunks.length

/-! ## Embedding provider: `providers/embedding/local.py`, `openai.py` -/

/-- Model of `embed(text)` (local.py lines 46-53, openai.py lines 55-61): empty or
whitespace-only text is rejected; otherwise the underlying encoder — the
sentence-transformers model or the remote API, external to the repository
and passed in as `g` — is applied to the stripped text. -/
def embed (g : List Char → List ℚ) (text : List Char) : Except String (List ℚ) :=
  if (pyStrip text).isEmpty then .error "Text cannot be empty"
  else .ok (g (pyStrip text))

/-- Model of `embed_batch(texts)` (local.py lines 55-66, openai.py lines 63-72):
empty and whitespace-only entries are silently dropped, and the remaining
entries are stripped and encoded in their original order. -/
def embed_batch (g : List Char → List ℚ) (texts : List (List Char)) : List (List ℚ) :=
  (texts.filter fun t => !(pyStrip t).isEmpty).map fun t => g (pyStrip t)

/-! ## Document lifecycle: `apps/api/src/services/knowledge.py` -/

/-- The fixed metadata dict built for each chunk in
`KnowledgeService.index_document` (knowledge.py lines 96-105).  Caller
metadata and chunk-local metadata are merged in after these keys; the
`TextParser` always produces empty chunk-local metadata, and the caller
dict does not participate in any claim, so only the three fixed keys are
carried. -/
structure ChunkMeta where
  doc_id : String
  source : String
  chunk_index : Nat
deriving DecidableEq, Repr

/-- The `IndexResult` dataclass (knowledge.py lines 19-24). -/
structure IndexResult where
  success : Bool
  doc_id : String
  chunks_count : Nat
  message : String
deriving DecidableEq, Repr

/-- Model of `PgvectorStorageProvider.add` (pgvector.py lines 19-40): one `ChunkRow`
per entry of `ids`, reading `documents[i]`, `embeddings[i]` and
`metadatas[i]` positionally — the lists are not length-checked, and a
missing index raises Python's `IndexError` ("list index out of range"),
in which case nothing is committed. -/
def addRows : List String → List (List Char) → List (List ℚ) → List ChunkMeta →
    Except String (List ChunkRow)
  | [], _, _, _ => .ok []
  | id_ :: ids, doc :: docs, emb :: embs, meta :: metas =>
    (addRows ids docs embs metas).map fun rows =>
      ⟨id_, doc, emb, meta.doc_id, some meta.source, meta.chunk_index⟩ :: rows
  | _ :: _, _, _, _ => .error "list index out of range"

/-- Model of `KnowledgeService.index_document` (knowledge.py lines 44-138).

The outputs are: the sequence of committed states of this `Document` row
(in commit order — the first entry is the record created and persisted
before the `try` block), the value returned to the caller (`Except.error`
models a re-raised exception), and the chunk rows committed to the vector
store.  `none` means the parser's `while` loop diverged and the call never
returns.

`g` is the external embedding encoder; `embedErr` (resp. `storeErr`), when
`some e`, makes the `embed_batch` backend call (resp. the storage commit)
raise `e` — both are external I/O whose failures the source catches in its
`except` block.  The source creates the record with `status="parsing"`
directly; no `"uploading"` state is ever written. -/
def index_document (size overlap : Nat) (g : List Char → List ℚ)
    (embedErr storeErr : Option String) (doc_id : String) (content : List Char)
    (source : String) :
    Option (List Document × Except String IndexResult × List ChunkRow) :=
  let doc0 : Document := ⟨doc_id, "parsing", none, 0⟩
  match parse size overlap content with
  | none => none
  | some chunks =>
    if chunks.isEmpty then
      some ([doc0, { doc0 with status := "error", error_message := some "No content to index" }],
        .ok ⟨false, doc_id, 0, "No content to index"⟩, [])
    else
      let doc1 := { doc0 with status := "indexing" }
      match embedErr with
      | some e =>
        some ([doc0, doc1, { doc1 with status := "error", error_message := some e }],
          .error e, [])
      | none =>
        let chunk_contents := chunks.map Chunk.content
        let embeddings := embed_batch g chunk_contents
        let ids := chunks.map fun c => doc_id ++ "_" ++ toString c.index
        let metadatas := chunks.map fun c => ChunkMeta.mk doc_id source c.index
        match addRows ids chunk_contents embeddings metadatas with
        | .error e =>
          some ([doc0, doc1, { doc1 with status := "error", error_message := some e }],
            .error e, [])
        | .ok rows =>
          match storeErr with
          | some e =>
            some ([doc0, doc1, { doc1 with status := "error", error_message := some e }],
              .error e, [])
          | none =>
            some ([doc0, doc1,
              { doc1 with status := "ready", chunk_count := chunks.length }],
              .ok ⟨true, doc_id, chunks.length,
                "Successfully indexed " ++ toString chunks.length ++ " chunks"⟩, rows)

/-! ## Chat service: `apps/api/src/services/chat.py` -/

/-- A content block of a generative-model response. -/
inductive Block
  | text (s : String)
  | toolUse (id : String) (query : String)
deriving DecidableEq, Repr

/-- One response of the generative model: stop reason and content blocks.
Token usage accumulation (chat.py lines 93-94, 139-140) touches no claim
and is not carried. -/
structure ModelResponse where
  stop_reason : String
  content : List Block
deriving DecidableEq, Repr

/-- A search result as returned by `SearchService.search`
(`services/search.py` lines 13-20), restricted to the fields the chat loop
reads. -/
structure SearchResultItem where
  content : String
  source : String
  score : ℚ
deriving DecidableEq, Repr

/-- One server-sent event of `stream_chat` — the payload of one
`data:` line, by its `type` tag. -/
inductive SseEvent
  | source (sources : List (String × String × ℚ))
  | text (s : String)
  | done
  | error (message : String)
deriving DecidableEq, Repr

/-- Whether an event is an error event. -/
def SseEvent.isError : SseEvent → Bool
  | .error _ => true
  | _ => false

/-- Whether an event is the done event. -/
def SseEvent.isDone : SseEvent → Bool
  | .done => true
  | _ => false

/-- Whether an event is a source event. -/
def SseEvent.isSource : SseEvent → Bool
  | .source _ => true
  | _ => false

/-- Python's `next(b for b in content if b.type == "tool_use")` (chat.py
lines 98-100): the first tool-use block, or `none` (Python: a raised
`StopIteration`) when there is none. -/
def findToolUse : List Block → Option (String × String)
  | [] => none
  | .toolUse id_ q :: _ => some (id_, q)
  | .text _ :: bs => findToolUse bs

/-- The text extraction of chat.py lines 143-146: the `text` field of every
block that has one, in order. -/
def textBlocks : List Block → List String
  | [] => []
  | .text s :: bs => s :: textBlocks bs
  | .toolUse _ _ :: bs => textBlocks bs

/-- The external collaborators of one `stream_chat` call. -/
structure ChatEnv where
  /-- Successive outcomes of the `messages.create` calls; an exhausted list
  means the next call fails with a connection error. -/
  responses : List (Except String ModelResponse)
  /-- Outcome of `SearchService.search` per query string. -/
  searchResults : String → Except String (List SearchResultItem)
  /-- Failure, if any, of the assistant-message commit (chat.py 149-159). -/
  persistErr : Option String
  /-- Failure, if any, inside `_maybe_generate_title` (chat.py 162). -/
  titleErr : Option String
  /-- The conversation's current title (`none` models SQL NULL). -/
  title : Option String

/-- The `while response.stop_reason == "tool_use"` loop (chat.py lines
97-140): each round extracts the tool call, runs the search, yields one
source event, and re-invokes the model on the extended history.  Returns
the events yielded by the rounds and either the first non-tool response or
the exception that aborted the loop. -/
def toolLoop (searchFn : String → Except String (List SearchResultItem)) :
    List (Except String ModelResponse) → ModelResponse →
    List SseEvent × Except String ModelResponse
  | script, resp =>
    if resp.stop_reason = "tool_use" then
      match findToolUse resp.content with
      | none => ([], .error "StopIteration")
      | some (_tid, query) =>
        match searchFn query with
        | .error e => ([], .error e)
        | .ok results =>
          let ev := SseEvent.source
            (results.map fun r => (r.content.take 200, r.source, r.score))
          match script with
          | [] => ([ev], .error "connection error")
          | next :: rest =>
            match next with
            | .error e => ([ev], .error e)
            | .ok resp' =>
              (ev :: (toolLoop searchFn rest resp').1, (toolLoop searchFn rest resp').2)
    else ([], .ok resp)

/-- Python `s.strip()` on `String`. -/
def pyStripS (s : String) : String :=
  ⟨pyStrip s.data⟩

/-- Model of `ChatService._maybe_generate_title` (chat.py lines 170-179):
when the conversation's title is unset — Python's falsy test, which treats
the empty string like NULL — the title becomes the first 50 characters of
the first message, stripped, plus `"..."` when the message is longer than
50 characters. -/
def maybe_generate_title (title : Option String) (first_message : String) : Option String :=
  if title = none ∨ title = some "" then
    some (pyStripS (first_message.take 50) ++
      if first_message.length > 50 then "..." else "")
  else title

/-- Model of `ChatService.stream_chat` (chat.py lines 31-168).  Returns the
SSE events in emission order, the persisted assistant-message content
(`none` when that commit never happened or failed), and the conversation
title after the call.  The user message is committed before the `try`
block; that step touches no claim and is not carried further. -/
def stream_chat (env : ChatEnv) (message : String) :
    List SseEvent × Option String × Option String :=
  match env.responses with
  | [] => ([.error "connection error"], none, env.title)
  | first :: rest =>
    match first with
    | .error e => ([.error e], none, env.title)
    | .ok resp =>
      match toolLoop env.searchResults rest resp with
      | (evs, .error e) => (evs ++ [.error e], none, env.title)
      | (evs, .ok final) =>
        let texts := textBlocks final.content
        let textEvs := texts.map SseEvent.text
        let full := String.join texts
        match env.persistErr with
        | some e => (evs ++ textEvs ++ [.error e], none, env.title)
        | none =>
          match env.titleErr with
          | some e => (evs ++ textEvs ++ [.error e], some full, env.title)
          | none =>
            (evs ++ textEvs ++ [.done], some full,
              maybe_generate_title env.title message)

/-! ## Theorems about the chunker -/

theorem chunkLoop_eq_specLoop (size overlap : Nat) (hov : overlap < size) (text : List Char) :
    ∀ fuel start, text.length - start < fuel →
      chunkLoop size overlap text start fuel =
        some (specLoop size (size - overlap) (by omega) text start) := by
  intro fuel
  induction fuel with
  | zero => intro start h; omega
  | succ n ih =>
    intro start h
    rw [specLoop, chunkLoop]
    by_cases hs : start < text.length
    · have harith : start + size - overlap = start + (size - overlap) := by omega
      rw [if_pos hs, dif_pos hs, harith, ih (start + (size - overlap)) (by omega)]
    · rw [if_neg hs, dif_neg hs]

/-- For a valid overlap the fuel given in `chunk_text` suffices, and the
loop computes exactly the spec's sliding window. -/
theorem chunk_text_eq_specSlidingWindow (size overlap : Nat) (hov : overlap < size)
    (text : List Char) :
    chunk_text size overlap text = some (specSlidingWindow size overlap hov text) := by
  unfold chunk_text specSlidingWindow
  by_cases hlen : text.length ≤ size
  · rw [if_pos hlen, if_pos hlen]
  · rw [if_neg hlen, if_neg hlen]
    exact chunkLoop_eq_specLoop size overlap hov text (text.length + 1) 0 (by omega)

theorem parse_total (size overlap : Nat) (hov : overlap < size) (content : List Char) :
    ∃ cs, parse size overlap content = some cs := by
  unfold parse
  by_cases hb : pyStrip content = []
  · exact ⟨[], by rw [if_pos hb]⟩
  · rw [if_neg hb, chunk_text_eq_specSlidingWindow size overlap hov]
    exact ⟨_, rfl⟩

/-- C1: plain-text sliding-window chunking conforms to the spec's algorithm
on every content with at least one non-whitespace character (amended from
"every text": blank input yields zero chunks, see the counterexample): the
chunks are exactly those of the spec's sliding window applied to the
stripped content — one chunk when it fits in a window, otherwise
`text[start : start+size]` with `start` stepping by `size - overlap` until
it reaches the end, numbered in emission order — and the
`"A"*1200, size 500, overlap 50` example yields exactly the three spans
`[0:500]`, `[450:950]`, `[900:1200]`. -/
theorem parse_conforms_sliding_window_spec (size overlap : Nat) (hov : overlap < size)
    (content : List Char) (hne : pyStrip content ≠ []) :
    parse size overlap content =
      some ((specSlidingWindow size overlap hov (pyStrip content)).enum.map
        fun p => ⟨p.2, p.1⟩) ∧
    parse 500 50 (List.replicate 1200 'A') =
      some [⟨pySlice (List.replicate 1200 'A') 0 500, 0⟩,
            ⟨pySlice (List.replicate 1200 'A') 450 950, 1⟩,
            ⟨pySlice (List.replicate 1200 'A') 900 1200, 2⟩] := by
  constructor
  · unfold parse
    rw [if_neg hne, chunk_text_eq_specSlidingWindow size overlap hov]
    rfl
  · decide

/-- Witness for C1 at the spec's own example input. -/
theorem parse_conforms_sliding_window_spec_witness :
    parse 500 50 (List.replicate 1200 'A') =
      some ((specSlidingWindow 500 50 (by omega) (pyStrip (List.replicate 1200 'A'))).enum.map
        fun p => ⟨p.2, p.1⟩) ∧
    parse 500 50 (List.replicate 1200 'A') =
      some [⟨pySlice (List.replicate 1200 'A') 0 500, 0⟩,
            ⟨pySlice (List.replicate 1200 'A') 450 950, 1⟩,
            ⟨pySlice (List.replicate 1200 'A') 900 1200, 2⟩] :=
  parse_conforms_sliding_window_spec 500 50 (by omega) (List.replicate 1200 'A') (by decide)

/-- C1 counterexample: the empty text has length at most the chunk size, yet
`parse` yields zero chunks rather than exactly one. -/
theorem parse_blank_counterexample :
    ([] : List Char).length ≤ 500 ∧ (parse 500 50 []).map List.length = some 0 ∧
      (some 0 : Option Nat) ≠ some 1 := by decide

theorem chunkLoop_stuck_of_overlap_eq_size (size : Nat) (text : List Char)
    (h0 : 0 < text.length) : ∀ fuel, chunkLoop size size text 0 fuel = none := by
  intro fuel
  induction fuel with
  | zero => rfl
  | succ n ih =>
    rw [chunkLoop, if_pos h0]
    have h : 0 + size - size = 0 := by omega
    rw [h, ih]

/-- C4 (code bug): `ParserProvider.__init__` (base.py lines 34-36) stores
`chunk_size` and `chunk_overlap` without any validation — a caller-supplied
overlap equal to the size is neither rejected nor clamped — and then the
`_chunk_text` loop never advances: on `"A"*501` with size = overlap = 500
no amount of fuel completes the loop, so `parse` never returns. -/
theorem chunker_accepts_overlap_eq_size_and_diverges :
    (∀ fuel, chunkLoop 500 500 (List.replicate 501 'A') 0 fuel = none) ∧
      parse 500 500 (List.replicate 501 'A') = none :=
  ⟨fun fuel => chunkLoop_stuck_of_overlap_eq_size 500 _ (by decide) fuel, by decide⟩

/-! ## Theorems about rounding and search -/

theorem pyRound_mono {q r : ℚ} (h : q ≤ r) : pyRound q ≤ pyRound r := by
  unfold pyRound
  have hf : ⌊q⌋ ≤ ⌊r⌋ := Int.floor_mono h
  have hq1 : (⌊q⌋ : ℚ) ≤ q := Int.floor_le q
  have hr1 : (⌊r⌋ : ℚ) ≤ r := Int.floor_le r
  have hq2 : q < ⌊q⌋ + 1 := Int.lt_floor_add_one q
  have hr2 : r < ⌊r⌋ + 1 := Int.lt_floor_add_one r
  have hmono : ⌊q + 1 / 2⌋ ≤ ⌊r + 1 / 2⌋ := Int.floor_mono (by linarith)
  have hql : ⌊q⌋ ≤ ⌊q + 1 / 2⌋ := Int.le_floor.mpr (by linarith)
  have hqu : ⌊q + 1 / 2⌋ ≤ ⌊q⌋ + 1 := by
    have hlt : ⌊q + 1 / 2⌋ < ⌊q⌋ + 2 := Int.floor_lt.mpr (by push_cast; linarith)
    omega
  split_ifs with h1 h2 h2
  · exact hf
  · exact hql.trans hmono
  · obtain ⟨hhalf, heven⟩ := h2
    by_cases hlt : ⌊q⌋ < ⌊r⌋
    · exact hqu.trans (by omega)
    · have hfeq : ⌊q⌋ = ⌊r⌋ := le_antisymm hf (by omega)
      have hqne : q - ⌊q⌋ ≠ 1 / 2 := fun hc => h1 ⟨hc, by rw [hfeq]; exact heven⟩
      have hle : q - ⌊q⌋ ≤ 1 / 2 := by
        have : (⌊q⌋ : ℚ) = (⌊r⌋ : ℚ) := by exact_mod_cast congrArg Int.cast hfeq
        linarith
      have hstrict : q - ⌊q⌋ < 1 / 2 := lt_of_le_of_ne hle hqne
      have : ⌊q + 1 / 2⌋ < ⌊q⌋ + 1 := Int.floor_lt.mpr (by push_cast; linarith)
      omega
  · exact hmono

theorem round4_mono {q r : ℚ} (h : q ≤ r) : round4 q ≤ round4 r := by
  unfold round4
  have hm : pyRound (q * 10000) ≤ pyRound (r * 10000) :=
    pyRound_mono (by linarith)
  have hc : ((pyRound (q * 10000) : ℚ)) ≤ ((pyRound (r * 10000) : ℚ)) := by exact_mod_cast hm
  linarith

theorem round4_neg_one : round4 (-1) = -1 := by
  norm_num [round4, pyRound]

theorem round4_one : round4 (1 : ℚ) = 1 := by
  norm_num [round4, pyRound]

theorem round4_one_sub_bounds {d : ℚ} (h0 : 0 ≤ d) (h2 : d ≤ 2) :
    -1 ≤ round4 (1 - d) ∧ round4 (1 - d) ≤ 1 := by
  have l1 : round4 (-1) ≤ round4 (1 - d) := round4_mono (by linarith)
  have l2 : round4 (1 - d) ≤ round4 1 := round4_mono (by linarith)
  rw [round4_neg_one] at l1
  rw [round4_one] at l2
  exact ⟨l1, l2⟩

/-- C3 (amended): `search` returns results ordered by descending score, and
each score is `round(1 - d, 4)` for the backing engine's cosine distance `d`
of some stored row; since a cosine distance lies in `[0, 2]`, each score
lies in `[-1, 1]` — not `[0, 1]` as claimed (see the counterexample). -/
theorem search_sorted_desc_and_score_bounds (dist : List ℚ → List ℚ → ℚ)
    (hd : ∀ u v, 0 ≤ dist u v ∧ dist u v ≤ 2)
    (rows : List ChunkRow) (query : List ℚ) (top_k : Nat) (filter_doc : Option String) :
    List.Sorted (fun a b : SearchResult => b.score ≤ a.score)
        (search dist rows query top_k filter_doc) ∧
      ∀ res ∈ search dist rows query top_k filter_doc,
        (-1 ≤ res.score ∧ res.score ≤ 1) ∧
          ∃ row ∈ rows, res.score = round4 (1 - dist row.embedding query) := by
  unfold search
  constructor
  · refine List.Pairwise.map _ ?_
      ((List.sorted_insertionSort distLE _).sublist (List.take_sublist _ _))
    intro a b hab
    refine round4_mono ?_
    have : a.1 ≤ b.1 := hab
    linarith
  · intro res hres
    simp only [List.mem_map] at hres
    obtain ⟨p, hp, hpe⟩ := hres
    have hp' : p ∈ List.insertionSort distLE _ := List.mem_of_mem_take hp
    rw [List.mem_insertionSort, List.mem_map] at hp'
    obtain ⟨row, hrow, hrowe⟩ := hp'
    have hrow' : row ∈ rows := by
      cases filter_doc with
      | none => simpa using hrow
      | some d => exact List.mem_of_mem_filter hrow
    obtain ⟨hd0, hd2⟩ := hd row.embedding query
    subst hpe
    rw [← hrowe]
    exact ⟨round4_one_sub_bounds hd0 hd2, row, hrow', rfl⟩

/-- Witness for C3 on a two-row store. -/
theorem search_sorted_desc_and_score_bounds_witness :
    List.Sorted (fun a b : SearchResult => b.score ≤ a.score)
      (search (fun u v => if u = v then 0 else 1)
        [⟨"c1", ['x'], [1], "d1", none, 0⟩, ⟨"c2", ['y'], [2], "d1", none, 1⟩]
        [2] 5 none) :=
  (search_sorted_desc_and_score_bounds (fun u v => if u = v then 0 else 1)
    (fun u v => by by_cases h : u = v <;> simp [h])
    [⟨"c1", ['x'], [1], "d1", none, 0⟩, ⟨"c2", ['y'], [2], "d1", none, 1⟩] [2] 5 none).1

/-- C3 counterexample: a stored one-dimensional embedding `[1]` queried with
`[-1]` has cosine distance `1 - (-1)/1 = 2`, so its reported score is
`round(1 - 2, 4) = -1`, which is not in `[0, 1]`. -/
theorem search_score_can_be_negative :
    search cosineDistance1 [⟨"c1", ['x'], [1], "d1", none, 0⟩] [-1] 5 none =
        [⟨"c1", ['x'], -1, ""⟩] ∧
      ¬ (0 ≤ (-1 : ℚ)) := by
  constructor
  · have hdist : cosineDistance1 [1] [-1] = 2 := by
      norm_num [cosineDistance1]
    simp [search, List.insertionSort, hdist]
    norm_num [round4, pyRound]
  · norm_num

/-! ## Theorems about deletion -/

/-- C5: `delete_by_doc_id d` keeps exactly the chunk rows whose `doc_id`
differs from `d` and the document rows whose id differs from `d` (in their
original order — the sublist conjuncts), and `count()` decreases by exactly
the number of chunk rows that had `doc_id = d`.  The source performs both
deletes in one transaction (single commit), modelled as one state
transition. -/
theorem delete_by_doc_id_exact (st : StoreState) (d : String) :
    (∀ c : ChunkRow, c ∈ (delete_by_doc_id st d).chunks ↔ c ∈ st.chunks ∧ c.doc_id ≠ d) ∧
      (∀ doc : Document,
        doc ∈ (delete_by_doc_id st d).documents ↔ doc ∈ st.documents ∧ doc.id ≠ d) ∧
      (delete_by_doc_id st d).chunks.Sublist st.chunks ∧
      (delete_by_doc_id st d).documents.Sublist st.documents ∧
      count (delete_by_doc_id st d) =
        count st - st.chunks.countP (fun c => c.doc_id = d) := by
  refine ⟨?_, ?_, List.filter_sublist _, List.filter_sublist _, ?_⟩
  · intro c
    simp [delete_by_doc_id, List.mem_filter]
  · intro doc
    simp [delete_by_doc_id, List.mem_filter]
  · simp only [delete_by_doc_id, count, ne_eq, decide_not]
    induction st.chunks with
    | nil => rfl
    | cons c cs ih =>
      have hle : List.countP (fun x => decide (x.doc_id = d)) cs ≤ cs.length :=
        List.countP_le_length _
      by_cases hc : c.doc_id = d <;>
        simp [hc, List.filter_cons, List.countP_cons] <;>
        omega

/-! ## Theorems about the document lifecycle -/

theorem addRows_ok_length :
    ∀ (ids : List String) (docs : List (List Char)) (embs : List (List ℚ))
      (metas : List ChunkMeta) (rows : List ChunkRow),
      addRows ids docs embs metas = .ok rows → rows.length = ids.length := by
  intro ids
  induction ids with
  | nil =>
    intro docs embs metas rows h
    simp only [addRows, Except.ok.injEq] at h
    simp [← h]
  | cons id_ ids ih =>
    intro docs embs metas rows h
    match docs, embs, metas with
    | [], _, _ => simp [addRows] at h
    | _ :: _, [], _ => simp [addRows] at h
    | _ :: _, _ :: _, [] => simp [addRows] at h
    | doc :: docs, emb :: embs, meta :: metas =>
      simp only [addRows] at h
      cases har : addRows ids docs embs metas with
      | error e => rw [har] at h; simp [Except.map] at h
      | ok rows' =>
        rw [har] at h
        simp only [Except.map, Except.ok.injEq] at h
        subst h
        simp [ih docs embs metas rows' har]

theorem addRows_ok_of_le :
    ∀ (ids : List String) (docs : List (List Char)) (embs : List (List ℚ))
      (metas : List ChunkMeta),
      ids.length ≤ docs.length → ids.length ≤ embs.length → ids.length ≤ metas.length →
      ∃ rows, addRows ids docs embs metas = .ok rows := by
  intro ids
  induction ids with
  | nil => intro docs embs metas _ _ _; exact ⟨[], rfl⟩
  | cons id_ ids ih =>
    intro docs embs metas hd he hm
    match docs, embs, metas with
    | [], _, _ => simp at hd
    | _ :: _, [], _ => simp at he
    | _ :: _, _ :: _, [] => simp at hm
    | doc :: docs, emb :: embs, meta :: metas =>
      simp only [List.length_cons, Nat.add_le_add_iff_right] at hd he hm
      obtain ⟨rows, hrows⟩ := ih docs embs metas hd he hm
      refine ⟨⟨id_, doc, emb, meta.doc_id, some meta.source, meta.chunk_index⟩ :: rows, ?_⟩
      simp only [addRows, hrows, Except.map]

theorem addRows_short_embs_error :
    ∀ (ids : List String) (docs : List (List Char)) (embs : List (List ℚ))
      (metas : List ChunkMeta),
      ids.length ≤ docs.length → ids.length ≤ metas.length → embs.length < ids.length →
      addRows ids docs embs metas = .error "list index out of range" := by
  intro ids
  induction ids with
  | nil => intro docs embs metas _ _ he; simp at he
  | cons id_ ids ih =>
    intro docs embs metas hd hm he
    match docs, metas with
    | [], _ => simp at hd
    | _ :: _, [] => simp at hm
    | doc :: docs, meta :: metas =>
      match embs with
      | [] => rfl
      | emb :: embs =>
        simp only [List.length_cons, Nat.add_le_add_iff_right] at hd hm
        simp only [List.length_cons, Nat.add_lt_add_iff_right] at he
        simp only [addRows, ih docs embs metas hd hm he, Except.map]

theorem embed_batch_all_valid (g : List Char → List ℚ) (texts : List (List Char))
    (h : ∀ t ∈ texts, (pyStrip t).isEmpty = false) :
    embed_batch g texts = texts.map fun t => g (pyStrip t) := by
  unfold embed_batch
  rw [List.filter_eq_self.mpr]
  intro t ht
  simp [h t ht]

/-- C2 (amended): a successful `index_document` run commits the Document
record in status `"parsing"`, then `"indexing"`, then `"ready"` — in this
commit order, each persisted before the next step runs, and with no
`"uploading"` state ever written (see the counterexample) — and the final
record's `chunk_count` equals the number of chunk rows stored in the
vector store. -/
theorem index_document_success_status_sequence (size overlap : Nat)
    (g : List Char → List ℚ) (embedErr storeErr : Option String)
    (doc_id : String) (content : List Char) (source : String)
    (trace : List Document) (r : IndexResult) (rows : List ChunkRow)
    (h : index_document size overlap g embedErr storeErr doc_id content source =
      some (trace, .ok r, rows))
    (hsucc : r.success = true) :
    trace.map Document.status = ["parsing", "indexing", "ready"] ∧
      trace.getLast?.map Document.chunk_count = some rows.length := by
  unfold index_document at h
  cases hp : parse size overlap content with
  | none => rw [hp] at h; simp at h
  | some chunks =>
    rw [hp] at h
    simp only at h
    by_cases hce : chunks.isEmpty
    · rw [if_pos hce] at h
      simp only [Option.some.injEq, Prod.mk.injEq, Except.ok.injEq] at h
      obtain ⟨-, hr, -⟩ := h
      rw [← hr] at hsucc
      simp at hsucc
    · rw [if_neg hce] at h
      cases embedErr with
      | some e => simp at h
      | none =>
        simp only at h
        cases har : addRows (chunks.map fun c => doc_id ++ "_" ++ toString c.index)
            (chunks.map Chunk.content)
            (embed_batch g (chunks.map Chunk.content))
            (chunks.map fun c => ChunkMeta.mk doc_id source c.index) with
        | error e => rw [har] at h; simp at h
        | ok rows' =>
          rw [har] at h
          cases storeErr with
          | some e => simp at h
          | none =>
            simp only [Option.some.injEq, Prod.mk.injEq, Except.ok.injEq] at h
            obtain ⟨htr, -, hrows⟩ := h
            have hlen : rows'.length = chunks.length := by
              rw [addRows_ok_length _ _ _ _ _ har, List.length_map]
            subst htr hrows
            simp [hlen]

/-- Witness for C2 on a concrete successful run. -/
theorem index_document_success_status_sequence_witness :
    ([⟨"d1", "parsing", none, 0⟩, ⟨"d1", "indexing", none, 0⟩,
        (⟨"d1", "ready", none, 1⟩ : Document)].map Document.status =
      ["parsing", "indexing", "ready"]) ∧
      ([⟨"d1", "parsing", none, 0⟩, ⟨"d1", "indexing", none, 0⟩,
        (⟨"d1", "ready", none, 1⟩ : Document)].getLast?.map Document.chunk_count =
        some [(⟨"d1_0", ['h', 'i'], [1], "d1", some "src", 0⟩ : ChunkRow)].length) :=
  index_document_success_status_sequence 500 50 (fun _ => [1]) none none "d1"
    ['h', 'i'] "src"
    [⟨"d1", "parsing", none, 0⟩, ⟨"d1", "indexing", none, 0⟩, ⟨"d1", "ready", none, 1⟩]
    ⟨true, "d1", 1, "Successfully indexed 1 chunks"⟩
    [⟨"d1_0", ['h', 'i'], [1], "d1", some "src", 0⟩] rfl rfl

/-- C2 counterexample: on a concrete successful run the committed status
sequence is `parsing, indexing, ready` — the record is created directly in
`"parsing"` (knowledge.py line 61) and never passes through `"uploading"`. -/
theorem index_document_never_writes_uploading :
    (index_document 500 50 (fun _ => [1]) none none "d1" ['h', 'i'] "src").map
        (fun out => out.1.map Document.status) =
      some ["parsing", "indexing", "ready"] ∧
      "uploading" ∉ (["parsing", "indexing", "ready"] : List String) := by
  constructor
  · rfl
  · decide

/-- C7: an exception `e` raised by the embedding backend call, or by the
storage step once embedding has produced aligned vectors, leaves the
Document in status `"error"` with `e` persisted as its error message, and
is re-raised to the caller (`Except.error e`) rather than swallowed. -/
theorem index_document_exception_records_error_and_reraises (size overlap : Nat)
    (g : List Char → List ℚ) (doc_id : String) (content : List Char) (source : String)
    (e : String) (cs : List Chunk)
    (hp : parse size overlap content = some cs) (hne : cs ≠ []) :
    index_document size overlap g (some e) none doc_id content source =
      some ([⟨doc_id, "parsing", none, 0⟩, ⟨doc_id, "indexing", none, 0⟩,
        ⟨doc_id, "error", some e, 0⟩], .error e, []) ∧
      ((∀ c ∈ cs, (pyStrip c.content).isEmpty = false) →
        index_document size overlap g none (some e) doc_id content source =
          some ([⟨doc_id, "parsing", none, 0⟩, ⟨doc_id, "indexing", none, 0⟩,
            ⟨doc_id, "error", some e, 0⟩], .error e, [])) := by
  have hce : cs.isEmpty = false := by
    cases cs with
    | nil => exact absurd rfl hne
    | cons c cs => rfl
  constructor
  · unfold index_document
    rw [hp]
    simp [hce]
  · intro hall
    unfold index_document
    rw [hp]
    simp only [hce, Bool.false_eq_true, if_false]
    have hlen : (embed_batch g (cs.map Chunk.content)).length = cs.length := by
      rw [embed_batch_all_valid g _ (by simpa using hall), List.length_map, List.length_map]
    obtain ⟨rows, hrows⟩ := addRows_ok_of_le
      (cs.map fun c => doc_id ++ "_" ++ toString c.index)
      (cs.map Chunk.content) (embed_batch g (cs.map Chunk.content))
      (cs.map fun c => ChunkMeta.mk doc_id source c.index)
      (by simp) (by simp [hlen]) (by simp)
    rw [hrows]

/-- Witness for C7 at a concrete document and failure message. -/
theorem index_document_exception_witness :
    (index_document 500 50 (fun _ => [1]) (some "boom") none "d1" ['h', 'i'] "src" =
      some ([⟨"d1", "parsing", none, 0⟩, ⟨"d1", "indexing", none, 0⟩,
        ⟨"d1", "error", some "boom", 0⟩], .error "boom", [])) ∧
      (index_document 500 50 (fun _ => [1]) none (some "boom") "d1" ['h', 'i'] "src" =
        some ([⟨"d1", "parsing", none, 0⟩, ⟨"d1", "indexing", none, 0⟩,
          ⟨"d1", "error", some "boom", 0⟩], .error "boom", [])) :=
  ⟨(index_document_exception_records_error_and_reraises 500 50 (fun _ => [1]) "d1"
      ['h', 'i'] "src" "boom" [⟨['h', 'i'], 0⟩] rfl (by decide)).1,
   (index_document_exception_records_error_and_reraises 500 50 (fun _ => [1]) "d1"
      ['h', 'i'] "src" "boom" [⟨['h', 'i'], 0⟩] rfl (by decide)).2 (by decide)⟩

/-- C8 (amended): when parsing yields zero chunks the Document is committed
in status `"error"` with message `"No content to index"` (capitalised `No`,
unlike the claim's quoted string — see the counterexample), and the caller
receives a non-raising failure result (`success = false`) with the same
message. -/
theorem index_document_empty_parse_is_business_error (size overlap : Nat)
    (g : List Char → List ℚ) (embedErr storeErr : Option String)
    (doc_id : String) (content : List Char) (source : String)
    (hblank : pyStrip content = []) :
    index_document size overlap g embedErr storeErr doc_id content source =
      some ([⟨doc_id, "parsing", none, 0⟩,
        ⟨doc_id, "error", some "No content to index", 0⟩],
        .ok ⟨false, doc_id, 0, "No content to index"⟩, []) := by
  unfold index_document parse
  rw [if_pos hblank]
  rfl

/-- Witness for C8 on whitespace-only content. -/
theorem index_document_empty_parse_witness :
    index_document 500 50 (fun _ => []) none none "d1" [' '] "src" =
      some ([⟨"d1", "parsing", none, 0⟩,
        ⟨"d1", "error", some "No content to index", 0⟩],
        .ok ⟨false, "d1", 0, "No content to index"⟩, []) :=
  index_document_empty_parse_is_business_error 500 50 (fun _ => []) none none "d1"
    [' '] "src" rfl

/-- C8 counterexample: the persisted and returned message is
`"No content to index"`, which differs from the claim's quoted
`"no content to index"`. -/
theorem index_document_error_message_is_capitalised :
    (index_document 500 50 (fun _ => []) none none "d1" [' '] "src").map
        (fun out => out.1.map Document.error_message) =
      some [none, some "No content to index"] ∧
      "No content to index" ≠ "no content to index" := by
  constructor
  · rfl
  · decide

/-- C10: in `index_document`, when every parsed chunk contains
non-whitespace text, the `ids`, `documents` and `embeddings` lists handed
to the storage `add` have equal length, with `embeddings[i]` the embedding
of `documents[i]` (the encoder applied to the stripped text, exactly as the
provider's single-text `embed` would produce), and the run stores one row
per chunk; but when any chunk is whitespace-only, `embed_batch` silently
drops it while `ids` and `documents` keep it, `add`'s positional access
into `embeddings` goes out of bounds (`IndexError`), and the run fails. -/
theorem index_document_embedding_alignment (size overlap : Nat)
    (g : List Char → List ℚ) (doc_id : String) (content : List Char) (source : String)
    (cs : List Chunk) (hp : parse size overlap content = some cs) (hne : cs ≠ []) :
    ((∀ c ∈ cs, (pyStrip c.content).isEmpty = false) →
      (embed_batch g (cs.map Chunk.content)).length = (cs.map Chunk.content).length ∧
      (∀ i : Nat, (embed_batch g (cs.map Chunk.content))[i]? =
        ((cs.map Chunk.content)[i]?).map fun t => g (pyStrip t)) ∧
      (∀ t ∈ cs.map Chunk.content, embed g t = .ok (g (pyStrip t))) ∧
      ∃ rows, index_document size overlap g none none doc_id content source =
        some ([⟨doc_id, "parsing", none, 0⟩, ⟨doc_id, "indexing", none, 0⟩,
          ⟨doc_id, "ready", none, cs.length⟩],
          .ok ⟨true, doc_id, cs.length,
            "Successfully indexed " ++ toString cs.length ++ " chunks"⟩, rows) ∧
          rows.length = cs.length) ∧
    ((∃ c ∈ cs, (pyStrip c.content).isEmpty = true) →
      (embed_batch g (cs.map Chunk.content)).length < (cs.map Chunk.content).length ∧
      index_document size overlap g none none doc_id content source =
        some ([⟨doc_id, "parsing", none, 0⟩, ⟨doc_id, "indexing", none, 0⟩,
          ⟨doc_id, "error", some "list index out of range", 0⟩],
          .error "list index out of range", [])) := by
  have hce : cs.isEmpty = false := by
    cases cs with
    | nil => exact absurd rfl hne
    | cons a l => rfl
  constructor
  · intro hall
    have hall' : ∀ t ∈ cs.map Chunk.content, (pyStrip t).isEmpty = false := by
      intro t ht
      obtain ⟨c, hc, rfl⟩ := List.mem_map.mp ht
      exact hall c hc
    have heb : embed_batch g (cs.map Chunk.content) =
        (cs.map Chunk.content).map fun t => g (pyStrip t) :=
      embed_batch_all_valid g _ hall'
    refine ⟨by rw [heb, List.length_map], ?_, ?_, ?_⟩
    · intro i
      rw [heb, List.getElem?_map]
    · intro t ht
      simp [embed, hall' t ht]
    · have hlen : (embed_batch g (cs.map Chunk.content)).length = cs.length := by
        rw [heb, List.length_map, List.length_map]
      obtain ⟨rows, hrows⟩ := addRows_ok_of_le
        (cs.map fun c => doc_id ++ "_" ++ toString c.index)
        (cs.map Chunk.content) (embed_batch g (cs.map Chunk.content))
        (cs.map fun c => ChunkMeta.mk doc_id source c.index)
        (by simp) (by simp [hlen]) (by simp)
      refine ⟨rows, ?_, ?_⟩
      · unfold index_document
        rw [hp]
        simp only [hce, Bool.false_eq_true, if_false]
        rw [hrows]
      · rw [addRows_ok_length _ _ _ _ _ hrows, List.length_map]
  · intro hex
    obtain ⟨c, hc, hblank⟩ := hex
    have hlt0 : (List.filter (fun t => !(pyStrip t).isEmpty) (cs.map Chunk.content)).length <
        (cs.map Chunk.content).length :=
      List.length_filter_lt_length_iff_exists.mpr
        ⟨c.content, List.mem_map_of_mem Chunk.content hc, by simp [hblank]⟩
    have hlt : (embed_batch g (cs.map Chunk.content)).length <
        (cs.map Chunk.content).length := by
      unfold embed_batch
      rw [List.length_map]
      exact hlt0
    refine ⟨hlt, ?_⟩
    have herr : addRows (cs.map fun c => doc_id ++ "_" ++ toString c.index)
        (cs.map Chunk.content) (embed_batch g (cs.map Chunk.content))
        (cs.map fun c => ChunkMeta.mk doc_id source c.index) =
        .error "list index out of range" :=
      addRows_short_embs_error _ _ _ _ (by simp) (by simp) (by simpa using hlt)
    unfold index_document
    rw [hp]
    simp only [hce, Bool.false_eq_true, if_false]
    rw [herr]

/-- Witness for C10: chunking `"a␣␣␣␣b"` with size 3, overlap 1 produces a
whitespace-only middle chunk, the embedding batch comes back one short, and
the indexing run aborts with `IndexError`. -/
theorem index_document_embedding_alignment_witness :
    (embed_batch (fun t => [(t.length : ℚ)])
        ([⟨['a', ' ', ' '], 0⟩, ⟨[' ', ' ', ' '], 1⟩,
          (⟨[' ', 'b'], 2⟩ : Chunk)].map Chunk.content)).length <
      ([⟨['a', ' ', ' '], 0⟩, ⟨[' ', ' ', ' '], 1⟩,
        (⟨[' ', 'b'], 2⟩ : Chunk)].map Chunk.content).length ∧
    index_document 3 1 (fun t => [(t.length : ℚ)]) none none "d1"
        ['a', ' ', ' ', ' ', ' ', 'b'] "src" =
      some ([⟨"d1", "parsing", none, 0⟩, ⟨"d1", "indexing", none, 0⟩,
        ⟨"d1", "error", some "list index out of range", 0⟩],
        .error "list index out of range", []) :=
  (index_document_embedding_alignment 3 1 (fun t => [(t.length : ℚ)]) "d1"
    ['a', ' ', ' ', ' ', ' ', 'b'] "src"
    [⟨['a', ' ', ' '], 0⟩, ⟨[' ', ' ', ' '], 1⟩, ⟨[' ', 'b'], 2⟩]
    rfl (by decide)).2 (by decide)

/-! ## Theorems about the chat loop -/

theorem toolLoop_events_are_source (sf : String → Except String (List SearchResultItem)) :
    ∀ (script : List (Except String ModelResponse)) (resp : ModelResponse),
      ∀ ev ∈ (toolLoop sf script resp).1, ev.isSource = true := by
  intro script
  induction script with
  | nil =>
    intro resp ev hev
    rw [toolLoop] at hev
    by_cases hs : resp.stop_reason = "tool_use"
    · rw [if_pos hs] at hev
      cases hf : findToolUse resp.content with
      | none => rw [hf] at hev; simp at hev
      | some p =>
        obtain ⟨tid, query⟩ := p
        rw [hf] at hev
        dsimp only at hev
        cases hr : sf query with
        | error e => rw [hr] at hev; simp at hev
        | ok results =>
          rw [hr] at hev
          simp only [List.mem_singleton] at hev
          subst hev
          rfl
    · rw [if_neg hs] at hev
      simp at hev
  | cons next rest ih =>
    intro resp ev hev
    rw [toolLoop] at hev
    by_cases hs : resp.stop_reason = "tool_use"
    · rw [if_pos hs] at hev
      cases hf : findToolUse resp.content with
      | none => rw [hf] at hev; simp at hev
      | some p =>
        obtain ⟨tid, query⟩ := p
        rw [hf] at hev
        dsimp only at hev
        cases hr : sf query with
        | error e => rw [hr] at hev; simp at hev
        | ok results =>
          rw [hr] at hev
          cases next with
          | error e =>
            simp only [List.mem_singleton] at hev
            subst hev
            rfl
          | ok resp' =>
            simp only [List.mem_cons] at hev
            cases hev with
            | inl h => subst h; rfl
            | inr h => exact ih resp' ev h
    · rw [if_neg hs] at hev
      simp at hev

theorem isError_false_of_isSource {ev : SseEvent} (h : ev.isSource = true) :
    ev.isError = false := by
  cases ev <;> simp_all [SseEvent.isSource, SseEvent.isError]

theorem isDone_false_of_isSource {ev : SseEvent} (h : ev.isSource = true) :
    ev.isDone = false := by
  cases ev <;> simp_all [SseEvent.isSource, SseEvent.isDone]

theorem toolLoop_countP_isError (sf : String → Except String (List SearchResultItem))
    (script : List (Except String ModelResponse)) (resp : ModelResponse) :
    (toolLoop sf script resp).1.countP SseEvent.isError = 0 :=
  List.countP_eq_zero.mpr fun ev hev => by
    rw [isError_false_of_isSource (toolLoop_events_are_source sf script resp ev hev)]
    simp

theorem toolLoop_countP_isDone (sf : String → Except String (List SearchResultItem))
    (script : List (Except String ModelResponse)) (resp : ModelResponse) :
    (toolLoop sf script resp).1.countP SseEvent.isDone = 0 :=
  List.countP_eq_zero.mpr fun ev hev => by
    rw [isDone_false_of_isSource (toolLoop_events_are_source sf script resp ev hev)]
    simp

theorem textEvs_countP_isError (texts : List String) :
    (texts.map SseEvent.text).countP SseEvent.isError = 0 :=
  List.countP_eq_zero.mpr fun ev hev => by
    obtain ⟨s, -, rfl⟩ := List.mem_map.mp hev
    simp [SseEvent.isError]

theorem textEvs_countP_isDone (texts : List String) :
    (texts.map SseEvent.text).countP SseEvent.isDone = 0 :=
  List.countP_eq_zero.mpr fun ev hev => by
    obtain ⟨s, -, rfl⟩ := List.mem_map.mp hev
    simp [SseEvent.isDone]

/-- C6 (amended): whenever any of the external calls of a chat turn fails —
so that the stream carries an error event — the stream carries exactly one
error event, it is the final event, and no done event is emitted; and no
assistant message is persisted for the turn unless the failure arose in the
title-update step, which runs after the assistant message was already
committed (see the counterexample). -/
theorem stream_chat_failure_semantics (env : ChatEnv) (message : String)
    (hfail : (stream_chat env message).1.countP SseEvent.isError ≠ 0) :
    (stream_chat env message).1.countP SseEvent.isError = 1 ∧
      (∃ e, (stream_chat env message).1.getLast? = some (.error e)) ∧
      (stream_chat env message).1.countP SseEvent.isDone = 0 ∧
      ((stream_chat env message).2.1 = none ∨ env.titleErr ≠ none) := by
  revert hfail
  unfold stream_chat
  cases henv : env.responses with
  | nil =>
    intro _
    exact ⟨rfl, ⟨"connection error", rfl⟩, rfl, Or.inl rfl⟩
  | cons first rest =>
    cases first with
    | error e =>
      intro _
      exact ⟨rfl, ⟨e, rfl⟩, rfl, Or.inl rfl⟩
    | ok resp =>
      dsimp only
      rcases htl : toolLoop env.searchResults rest resp with ⟨evs, out⟩
      have hevsE : evs.countP SseEvent.isError = 0 := by
        have h := toolLoop_countP_isError env.searchResults rest resp
        rw [htl] at h
        exact h
      have hevsD : evs.countP SseEvent.isDone = 0 := by
        have h := toolLoop_countP_isDone env.searchResults rest resp
        rw [htl] at h
        exact h
      cases out with
      | error e =>
        intro _
        dsimp only
        refine ⟨?_, ⟨e, List.getLast?_concat _⟩, ?_, Or.inl rfl⟩
        · simp [List.countP_append, hevsE, SseEvent.isError]
        · simp [List.countP_append, hevsD, SseEvent.isDone]
      | ok final =>
        dsimp only
        cases hpe : env.persistErr with
        | some e =>
          intro _
          refine ⟨?_, ⟨e, List.getLast?_concat _⟩, ?_, Or.inl rfl⟩
          · simp [List.countP_append, hevsE, textEvs_countP_isError, SseEvent.isError]
          · simp [List.countP_append, hevsD, textEvs_countP_isDone, SseEvent.isDone]
        | none =>
          cases hte : env.titleErr with
          | some e =>
            intro _
            refine ⟨?_, ⟨e, List.getLast?_concat _⟩, ?_, Or.inr (by simp [hte])⟩
            · simp [List.countP_append, hevsE, textEvs_countP_isError, SseEvent.isError]
            · simp [List.countP_append, hevsD, textEvs_countP_isDone, SseEvent.isDone]
          | none =>
            intro hfail
            exact absurd
              (by simp [List.countP_append, hevsE, textEvs_countP_isError, SseEvent.isError])
              hfail

/-- Witness for C6: a failing retrieval call on the first tool round. -/
theorem stream_chat_failure_semantics_witness :
    (stream_chat ⟨[.ok ⟨"tool_use", [.toolUse "t1" "q"]⟩], fun _ => .error "search down",
        none, none, none⟩ "hello").1.countP SseEvent.isError = 1 ∧
      (stream_chat ⟨[.ok ⟨"tool_use", [.toolUse "t1" "q"]⟩], fun _ => .error "search down",
        none, none, none⟩ "hello").1.countP SseEvent.isDone = 0 ∧
      ((stream_chat ⟨[.ok ⟨"tool_use", [.toolUse "t1" "q"]⟩], fun _ => .error "search down",
        none, none, none⟩ "hello").2.1 = none ∨
        (⟨[.ok ⟨"tool_use", [.toolUse "t1" "q"]⟩], fun _ => .error "search down",
          none, none, none⟩ : ChatEnv).titleErr ≠ none) :=
  ⟨(stream_chat_failure_semantics ⟨[.ok ⟨"tool_use", [.toolUse "t1" "q"]⟩],
      fun _ => .error "search down", none, none, none⟩ "hello" (by decide)).1,
   (stream_chat_failure_semantics ⟨[.ok ⟨"tool_use", [.toolUse "t1" "q"]⟩],
      fun _ => .error "search down", none, none, none⟩ "hello" (by decide)).2.2.1,
   (stream_chat_failure_semantics ⟨[.ok ⟨"tool_use", [.toolUse "t1" "q"]⟩],
      fun _ => .error "search down", none, none, none⟩ "hello" (by decide)).2.2.2⟩

/-- C6 counterexample: an exception raised in the title-update step — after
the assistant message was committed — still yields a single error event and
no done event, but the assistant message (the fully generated answer) HAS
been persisted for that turn. -/
theorem stream_chat_error_with_persisted_assistant :
    stream_chat ⟨[.ok ⟨"end_turn", [.text "hi"]⟩], fun _ => .ok [], none,
        some "db down", none⟩ "hello" =
      ([.text "hi", .error "db down"], some "hi", none) ∧
      (some "hi" : Option String) ≠ none := by
  exact ⟨rfl, by simp⟩

/-! ## Theorems about conversation titles -/

/-- C9 (amended): when the conversation's title is unset — or equal to the
empty string, which Python's falsy test treats as unset — the title becomes
the first 50 characters of the message, stripped of surrounding whitespace
(so a 60-character message yields the stripped 50-character prefix plus the
`"..."` marker, which is shorter than 50 characters when that prefix has
surrounding whitespace); a non-empty existing title is never overwritten,
and a whole successful chat turn leaves a non-empty title unchanged. -/
theorem conversation_title_rules :
    (∀ t : String, t ≠ "" → ∀ msg : String,
      maybe_generate_title (some t) msg = some t) ∧
    (∀ (title : Option String) (msg : String), title = none ∨ title = some "" →
      maybe_generate_title title msg =
        some (pyStripS (msg.take 50) ++ if msg.length > 50 then "..." else "")) ∧
    (∀ (env : ChatEnv) (message : String), env.title ≠ none → env.title ≠ some "" →
      (stream_chat env message).2.2 = env.title) := by
  refine ⟨?_, ?_, ?_⟩
  · intro t ht msg
    unfold maybe_generate_title
    rw [if_neg]
    simp [ht]
  · intro title msg h
    unfold maybe_generate_title
    rw [if_pos h]
  · intro env message h1 h2
    unfold stream_chat
    cases env.responses with
    | nil => rfl
    | cons first rest =>
      cases first with
      | error e => rfl
      | ok resp =>
        dsimp only
        rcases toolLoop env.searchResults rest resp with ⟨evs, out⟩
        cases out with
        | error e => rfl
        | ok final =>
          dsimp only
          cases env.persistErr with
          | some e => rfl
          | none =>
            cases env.titleErr with
            | some e => rfl
            | none =>
              dsimp only
              unfold maybe_generate_title
              rw [if_neg]
              rintro (hc | hc)
              · exact h1 hc
              · exact h2 hc

/-- Witness for C9: a set title survives the next turn; an unset title is
generated from the message. -/
theorem conversation_title_rules_witness :
    maybe_generate_title (some "My chat") "next question" = some "My chat" ∧
    maybe_generate_title none (String.mk (List.replicate 60 'A')) =
      some (pyStripS ((String.mk (List.replicate 60 'A')).take 50) ++
        if (String.mk (List.replicate 60 'A')).length > 50 then "..." else "") ∧
    (stream_chat ⟨[], fun _ => .ok [], none, none, some "Kept"⟩ "x").2.2 =
      (⟨[], fun _ => .ok [], none, none, some "Kept"⟩ : ChatEnv).title :=
  ⟨conversation_title_rules.1 "My chat" (by decide) "next question",
   conversation_title_rules.2.1 none (String.mk (List.replicate 60 'A')) (Or.inl rfl),
   conversation_title_rules.2.2 ⟨[], fun _ => .ok [], none, none, some "Kept"⟩ "x"
     (by simp) (by simp)⟩

/-- C9 counterexample: a 60-character message whose first 50 characters end
in whitespace is stripped after slicing, so the stored title is NOT a
50-character prefix plus the marker (here it is 40 characters plus the
marker, length 43, not 53); and an existing title equal to the empty string
(reachable from a whitespace-only first message) IS overwritten on a later
turn. -/
theorem conversation_title_counterexample :
    maybe_generate_title none ⟨List.replicate 10 ' ' ++ List.replicate 50 'A'⟩ =
      some ⟨List.replicate 40 'A' ++ ['.', '.', '.']⟩ ∧
    (String.mk (List.replicate 40 'A' ++ ['.', '.', '.'])).length = 43 ∧
    (43 : Nat) ≠ 53 ∧
    maybe_generate_title none "   " = some "" ∧
    maybe_generate_title (some "") "hello" = some "hello" ∧
    (some "hello" : Option String) ≠ some "" := by
  refine ⟨by decide, by decide, by decide, by decide, by decide, by decide⟩

end Index
